import Mathlib

/-!
Verification of the go-jup-ag client library (a Go client for the Jupiter
token-swap aggregation API).  The repository consists of two versions of the
client file (`src/unnamed/part_000`, `src/unnamed/part_001`) sharing a helper
package (`src/utils/utils.go`) and a types file.  Pure logic (URL building,
envelope parsing, route-map lookup, integer parsing and conversion) is
embedded as executable Lean definitions; external libraries (net/url,
encoding/json, go-querystring, the heimdall HTTP transport) are abstracted as
oracle functions threaded through an `Ext` record, so that each definition
mirrors the control flow of the corresponding Go function.
-/

/-- Go errors are modelled by their message strings. -/
abbrev GoError := String

/-- The slice of a parsed `net/url.URL` that this code touches: everything
before the query string, and the raw query itself (`u.RawQuery`). -/
structure URL where
  base : String
  rawQuery : String
deriving DecidableEq, Repr

/-- `url.URL.String()` restricted to the fields modelled in `URL`. -/
def URL.toString (u : URL) : String :=
  u.base ++ (if u.rawQuery = "" then "" else "?" ++ u.rawQuery)

/-- `net/url.Values` is `map[string][]string`; modelled as an association list. -/
abbrev Values := List (String × List String)

/-- An `http.Request` as this client builds it: method, the complete URL
string, the marshalled body bytes and the headers set on it. -/
structure HttpRequest where
  method : String
  url : String
  body : String
  headers : List (String × String)
deriving DecidableEq, Repr

/-- An `http.Response` as far as this client inspects it. -/
structure HttpResponse where
  statusCode : Nat
  body : String
deriving DecidableEq, Repr

/-- The JSON envelope `Response` from the types file:
`Data json.RawMessage`, `TimeTaken float64`, `ContextSlot int64`
(the float is modelled as a rational; only `Data` is ever read). -/
structure Response where
  Data : String
  TimeTaken : Rat
  ContextSlot : Int

/-- The dynamic `any` value passed as `params` to `request`: Go code passes
either `nil`, a `url.Values`, or a parameter struct of type `σ`. -/
inductive GoAny (σ : Type) where
  | goNil : GoAny σ
  | vals : Values → GoAny σ
  | strukt : σ → GoAny σ

/-- The dynamic `any` value passed as `body` to `request`: either `nil` or a
struct of type `β`. -/
inductive GoBody (β : Type) where
  | goNil : GoBody β
  | strukt : β → GoBody β

/-- `utils.StructToUrlValues`: nil is rejected, a `url.Values` is returned
unchanged, and a struct is converted through `go-querystring`'s
`query.Values` (the oracle `qv`). -/
def StructToUrlValues (qv : σ → Except GoError Values) : GoAny σ → Except GoError Values
  | .goNil => .error "struct is nil"
  | .vals v => .ok v
  | .strukt s => qv s

/-- `json.Marshal` applied to the `body` argument: marshalling `nil` yields
the bytes `null` and no error; a struct goes through the oracle. -/
def marshalBody (marshal : β → Except GoError String) : GoBody β → Except GoError String
  | .goNil => .ok "null"
  | .strukt b => marshal b

/-- The data bytes actually handed to `http.NewRequest` (Go keeps whatever
`json.Marshal` produced; the error case is only reachable when it is
discarded by the `body != nil && err != nil` guard). -/
def marshalData : Except GoError String → String
  | .ok s => s
  | .error _ => ""

/-- Boolean error test for `Except`. -/
def isErrE : Except ε α → Bool
  | .error _ => true
  | .ok _ => false

/-- Boolean success test for `Except`. -/
def isOkE : Except ε α → Bool
  | .ok _ => true
  | .error _ => false

/-- The request-building part of `(*JupagImpl).request`, common to both
versions of the client file: parse the endpoint, convert the params through
`utils.StructToUrlValues`, splice the encoded values in as the raw query,
marshal the body (failing only when the body is non-nil and marshalling
fails) and assemble the `http.Request` with the given headers. -/
def buildRequest (urlParse : String → Option URL) (encode : Values → String)
    (qv : σ → Except GoError Values) (marshal : β → Except GoError String)
    (hdrs : List (String × String)) (method endpoint : String)
    (params : GoAny σ) (body : GoBody β) : Except GoError HttpRequest :=
  match urlParse endpoint with
  | none => .error "url parse error"
  | some u =>
    match StructToUrlValues qv params with
    | .error e => .error ("failed to convert params to url values: " ++ e)
    | .ok uv =>
      let completeUrl := URL.toString ⟨u.base, encode uv⟩
      let mres := marshalBody marshal body
      match body, mres with
      | .strukt _, .error e => .error e
      | _, _ => .ok ⟨method, completeUrl, marshalData mres, hdrs⟩

/-- `(*JupagImpl).request`: build the request, and on success hand it to the
transport's `Do` once; on any build failure nothing is sent.  The second
component records every request passed to `Do`. -/
def requestG (urlParse : String → Option URL) (encode : Values → String)
    (doCall : HttpRequest → Except GoError HttpResponse)
    (qv : σ → Except GoError Values) (marshal : β → Except GoError String)
    (hdrs : List (String × String)) (method endpoint : String)
    (params : GoAny σ) (body : GoBody β) :
    Except GoError HttpResponse × List HttpRequest :=
  match buildRequest urlParse encode qv marshal hdrs method endpoint params body with
  | .error e => (.error e, [])
  | .ok req => (doCall req, [req])

/-- `(*JupagImpl).parseResponse`, identical in both versions of the client
file: reject any status other than 200, decode the body into the `Response`
envelope (oracle `dec`), and return its `Data` field. -/
def parseResponseG (dec : String → Option Response) (resp : HttpResponse) :
    Except GoError String :=
  if resp.statusCode ≠ 200 then
    .error ("unexpected status code: " ++ toString resp.statusCode)
  else
    match dec resp.body with
    | none => .error "failed to decode response"
    | some r => .ok r.Data

/-- `strconv.FormatBool`. -/
def formatBool : Bool → String
  | true => "true"
  | false => "false"

/-- The heimdall `httpclient.Client` configuration fixed by `NewJupag`:
HTTP timeout, retry count, and the constant-backoff interval and maximum
(all in milliseconds). -/
structure HttpClientConfig where
  timeoutMs : Nat
  retryCount : Nat
  backoffMs : Nat
  backoffMaxMs : Nat
deriving DecidableEq, Repr

/-- `JupagImpl`, identical in both versions of the client file: the HTTP
transport and the five URL/path strings. -/
structure JupagImpl where
  jupagImpl : HttpClientConfig
  apiUrl : String
  quotePath : String
  swapPath : String
  pricePath : String
  routesMapPath : String
deriving DecidableEq, Repr

/-- The outcome of one endpoint-method invocation: the Go return value, the
receiver as it stands after the call, and the list of requests the method
passed to the transport's `Do`. -/
structure MethodOut (α : Type) where
  result : Except GoError α
  client : JupagImpl
  trace : List HttpRequest

/- ===== utils: GetRoutesForMint ===== -/

/-- `IndexedRoutesMap` from the types file: `MintKeys []string` and
`IndexedRouteMap map[string][]int` (the Go map modelled as an association
list with unique keys). -/
structure IndexedRoutesMap where
  MintKeys : List String
  IndexedRouteMap : List (String × List Int)
deriving DecidableEq, Repr

/-- Go map read `m[k]` for `map[string][]int`: a missing key yields the zero
value, a nil (empty) slice. -/
def mapGetInts (m : List (String × List Int)) (k : String) : List Int :=
  (((m.find? (fun p => p.1 = k)).map Prod.snd)).getD []

/-- The first loop of `GetRoutesForMint`:
`for key, val := range r.MintKeys { if val == mint { mintKeys = r.IndexedRouteMap[strconv.Itoa(key)] } }` —
each later match overwrites the slice taken so far. -/
def findMintKeysLoop (m : List (String × List Int)) (mint : String) :
    List String → Nat → List Int → List Int
  | [], _, acc => acc
  | v :: rest, k, acc =>
    findMintKeysLoop m mint rest (k + 1)
      (if v = mint then mapGetInts m (toString k) else acc)

/-- The second loop of `GetRoutesForMint`:
`for _, key := range mintKeys { result = append(result, r.MintKeys[key]) }` —
the indexing `r.MintKeys[key]` is unguarded, so an index outside
`[0, len(MintKeys))` aborts with a runtime panic, modelled as an error. -/
def buildRoutesLoop (keys : List String) : List Int → Except GoError (List String)
  | [] => .ok []
  | k :: rest =>
    if 0 ≤ k ∧ k.toNat < keys.length then
      match buildRoutesLoop keys rest with
      | .ok l => .ok (keys.getD k.toNat "" :: l)
      | .error e => .error e
    else .error "runtime error: index out of range"

/-- `(*IndexedRoutesMap).GetRoutesForMint` from `utils.go`. -/
def GetRoutesForMint (r : IndexedRoutesMap) (mint : String) :
    Except GoError (List String) :=
  buildRoutesLoop r.MintKeys (findMintKeysLoop r.IndexedRouteMap mint r.MintKeys 0 [])

/-- The last position (counting from `k`) at which `mint` occurs in the
list — the index the overwriting loop of `GetRoutesForMint` ends up using. -/
def lastIdxFrom (mint : String) : List String → Nat → Option Nat
  | [], _ => none
  | v :: rest, k =>
    match lastIdxFrom mint rest (k + 1) with
    | some j => some j
    | none => if v = mint then some k else none

/- ===== strconv.ParseInt (base 10, bitSize 64) and uint64 conversion ===== -/

/-- Decimal digit value of a character, if it is a digit. -/
def digitVal (c : Char) : Option Nat :=
  if '0' ≤ c ∧ c ≤ '9' then some (c.toNat - '0'.toNat) else none

/-- Accumulate decimal digits; any non-digit character is a syntax error. -/
def parseDigitsAux : List Char → Nat → Option Nat
  | [], acc => some acc
  | c :: rest, acc =>
    match digitVal c with
    | none => none
    | some d => parseDigitsAux rest (acc * 10 + d)

/-- Parse a non-empty all-digit character list to its decimal value. -/
def parseDigits : List Char → Option Nat
  | [] => none
  | cs => parseDigitsAux cs 0

/-- Strip the optional leading sign, returning (isNegative, rest). -/
def parseSign : List Char → Bool × List Char
  | [] => (false, [])
  | c :: rest =>
    if c = '-' then (true, rest)
    else if c = '+' then (false, rest)
    else (false, c :: rest)

/-- `strconv.ParseInt(s, 10, 64)`: optional sign, then decimal digits;
empty or malformed input is a syntax error, and a value outside
`[-2^63, 2^63-1]` is a range error. -/
def parseInt64 (s : String) : Except GoError Int :=
  match parseDigits (parseSign s.toList).2 with
  | none => .error "invalid syntax"
  | some n =>
    if (parseSign s.toList).1 then
      if n ≤ 2 ^ 63 then .ok (-(n : Int)) else .error "value out of range"
    else
      if n ≤ 2 ^ 63 - 1 then .ok ((n : Int)) else .error "value out of range"

/-- Go's conversion `uint64(i)` of a signed 64-bit value: reduction modulo
`2^64` (two's-complement wraparound). -/
def uint64ofInt (i : Int) : Nat := (i % (2 ^ 64 : Int)).toNat

/- ===== Version 0 of the client file (src/unnamed/part_000) ===== -/

namespace V0

/-- The nested `SwapInfo` struct of `Route` from the types file. -/
structure SwapInfo where
  AmmKey : String
  FeeAmount : String
  FeeMint : String
  InAmount : String
  InputMint : String
  Label : String
  OutAmount : String
  OutputMint : String
deriving DecidableEq, Repr

/-- `Route` from the types file: a percent split and its swap info. -/
structure Route where
  Percent : Int
  SwapInfo : SwapInfo
deriving DecidableEq, Repr

/-- `QuoteResponse` from the types file (floats as rationals, the two
`interface{}` fields as raw JSON strings). -/
structure QuoteResponse where
  ContextSlot : Int
  InAmount : String
  InputMint : String
  OtherAmountThreshold : String
  OutAmount : String
  OutputMint : String
  PlatformFee : Option String
  PriceImpactPct : String
  RoutePlan : Route
  ScoreReport : Option String
  SlippageBps : Int
  SwapMode : String
  SwapType : String
  TimeTaken : Rat

/-- `SwapResponse` from the types file. -/
structure SwapResponse where
  SwapTransaction : String
deriving DecidableEq, Repr

/-- The `Price` object from the types file (named `Price` in Go; renamed
here because the endpoint method of the same name lives in this namespace). -/
structure PriceData where
  ID : String
  MintSymbol : String
  VsToken : String
  VsTokenSymbol : String
  PriceVal : Rat

/-- `PriceMap` is `map[string]Price`. -/
abbrev PriceMap := List (String × PriceData)

/-- `QuoteParams` from the types file. -/
structure QuoteParams where
  InputMint : String
  OutputMint : String
  Amount : Nat
  SwapMode : String
  DynamicSlippage : Bool
  OnlyDirectRoutes : Bool
  AsLegacyTransaction : Bool
  MinimizeSlippage : Bool
deriving DecidableEq, Repr

/-- `PriceParams` from the types file. -/
structure PriceParams where
  IDs : String
  VsToken : String
  VsAmount : Rat

/-- `SwapParams` from the types file. -/
structure SwapParams where
  Route : Route
  UserPublicKey : String
  WrapUnwrapSol : Option Bool
  FeeAccount : String
  AsLegacyTransaction : Option Bool
  ComputeUnitPriceMicroLamports : Option Int
  DestinationWallet : String
deriving DecidableEq, Repr

/-- The external functions this version of the client calls: `net/url`
parsing and encoding, `go-querystring` conversion of each parameter struct,
`encoding/json` marshalling and unmarshalling, and the heimdall transport's
`Do`. -/
structure Ext where
  urlParse : String → Option URL
  encode : Values → String
  qvQuote : QuoteParams → Except GoError Values
  qvPrice : PriceParams → Except GoError Values
  marshalSwap : SwapParams → Except GoError String
  doCall : HttpRequest → Except GoError HttpResponse
  decodeEnvelope : String → Option Response
  decodeQuote : String → Option QuoteResponse
  decodeSwap : String → Option SwapResponse
  decodePrice : String → Option PriceMap
  decodeRoutes : String → Option IndexedRoutesMap

/-- `NewJupag` of part_000: 3000ms HTTP timeout, retry count 1, constant
backoff 500ms (max 1000ms), and the fixed base URL and endpoint paths. -/
def NewJupag : JupagImpl :=
  { jupagImpl := { timeoutMs := 3000, retryCount := 1, backoffMs := 500, backoffMaxMs := 1000 }
    apiUrl := "https://quote-proxy.jup.ag"
    quotePath := "/quote"
    swapPath := "/swap"
    pricePath := "/price"
    routesMapPath := "/indexed-route-map" }

/-- This version's `request` sets the `Cache-Control: no-cache` header on
every request it builds. -/
def request (ext : Ext) (qv : σ → Except GoError Values)
    (marshal : β → Except GoError String) (method endpoint : String)
    (params : GoAny σ) (body : GoBody β) :
    Except GoError HttpResponse × List HttpRequest :=
  requestG ext.urlParse ext.encode ext.doCall qv marshal
    [("Cache-Control", "no-cache")] method endpoint params body

/-- `parseResponse` of part_000. -/
def parseResponse (ext : Ext) (resp : HttpResponse) : Except GoError String :=
  parseResponseG ext.decodeEnvelope resp

/-- The request `Quote` issues. -/
def quoteRequest (ext : Ext) (c : JupagImpl) (params : QuoteParams) :
    Except GoError HttpResponse × List HttpRequest :=
  request ext ext.qvQuote (fun (b : Empty) => b.elim) "GET"
    (c.apiUrl ++ c.quotePath) (.strukt params) .goNil

/-- `Quote` of part_000: issue the GET, run the response through
`parseResponse`, and unmarshal the envelope's `Data` into `QuoteResponse`.
A request error is returned as-is (the named return values). -/
def Quote (ext : Ext) (c : JupagImpl) (params : QuoteParams) : MethodOut QuoteResponse :=
  let r := quoteRequest ext c params
  match r.1 with
  | .error e => ⟨.error e, c, r.2⟩
  | .ok resp =>
    match parseResponse ext resp with
    | .error e => ⟨.error ("failed to parse quote response: " ++ e), c, r.2⟩
    | .ok data =>
      match ext.decodeQuote data with
      | none => ⟨.error "failed to parse quote response: unmarshal error", c, r.2⟩
      | some q => ⟨.ok q, c, r.2⟩

/-- The request `Swap` issues: note the `params` argument of `request` is
Go `nil` (the swap parameters travel as the body). -/
def swapRequest (ext : Ext) (c : JupagImpl) (params : SwapParams) :
    Except GoError HttpResponse × List HttpRequest :=
  request ext (fun (b : Empty) => b.elim) ext.marshalSwap "POST"
    (c.apiUrl ++ c.swapPath) .goNil (.strukt params)

/-- `Swap` of part_000: POST the params as JSON, check the status itself and
decode the body directly into `SwapResponse` (no `parseResponse`). -/
def Swap (ext : Ext) (c : JupagImpl) (params : SwapParams) : MethodOut String :=
  let r := swapRequest ext c params
  match r.1 with
  | .error e => ⟨.error ("failed to make swap request: " ++ e), c, r.2⟩
  | .ok resp =>
    if resp.statusCode ≠ 200 then
      ⟨.error ("unexpected status code: " ++ toString resp.statusCode), c, r.2⟩
    else
      match ext.decodeSwap resp.body with
      | none => ⟨.error "failed to decode response", c, r.2⟩
      | some s => ⟨.ok s.SwapTransaction, c, r.2⟩

/-- The request `Price` issues. -/
def priceRequest (ext : Ext) (c : JupagImpl) (params : PriceParams) :
    Except GoError HttpResponse × List HttpRequest :=
  request ext ext.qvPrice (fun (b : Empty) => b.elim) "GET"
    (c.apiUrl ++ c.pricePath) (.strukt params) .goNil

/-- `Price` of part_000: issue the GET, run the response through
`parseResponse`, and unmarshal the envelope's `Data` into `PriceMap`. -/
def Price (ext : Ext) (c : JupagImpl) (params : PriceParams) : MethodOut PriceMap :=
  let r := priceRequest ext c params
  match r.1 with
  | .error e => ⟨.error ("failed to make price request: " ++ e), c, r.2⟩
  | .ok resp =>
    match parseResponse ext resp with
    | .error e => ⟨.error ("failed to parse price response: " ++ e), c, r.2⟩
    | .ok data =>
      match ext.decodePrice data with
      | none => ⟨.error "failed to parse price response: unmarshal error", c, r.2⟩
      | some p => ⟨.ok p, c, r.2⟩

/-- The request `RoutesMap` issues: the params argument is a literal
`url.Values` carrying `onlyDirectRoutes`. -/
def routesMapRequest (ext : Ext) (c : JupagImpl) (onlyDirectRoutes : Bool) :
    Except GoError HttpResponse × List HttpRequest :=
  request ext (fun (b : Empty) => b.elim) (fun (b : Empty) => b.elim) "GET"
    (c.apiUrl ++ c.routesMapPath)
    (.vals [("onlyDirectRoutes", [formatBool onlyDirectRoutes])]) .goNil

/-- `RoutesMap` of part_000: issue the GET and decode the body directly into
`IndexedRoutesMap` (no status check, no `parseResponse`). -/
def RoutesMap (ext : Ext) (c : JupagImpl) (onlyDirectRoutes : Bool) :
    MethodOut IndexedRoutesMap :=
  let r := routesMapRequest ext c onlyDirectRoutes
  match r.1 with
  | .error e => ⟨.error ("failed to make routes map request: " ++ e), c, r.2⟩
  | .ok resp =>
    match ext.decodeRoutes resp.body with
    | none => ⟨.error "failed to parse routes map response: unmarshal error", c, r.2⟩
    | some m => ⟨.ok m, c, r.2⟩

end V0

/- ===== Version 1 of the client file (src/unnamed/part_001) ===== -/

/-- `SwapModeExactIn` from the types file. -/
def SwapModeExactIn : String := "ExactIn"

/-- `SwapModeExactOut` from the types file. -/
def SwapModeExactOut : String := "ExactOut"

namespace V1

/-- Modelled from the spec: the `Route` element of this version's quote
list is missing from the repository's files (only its callers are present);
per the spec, a route carries the string-encoded integer amounts that
`ExchangeRate` parses, so the two fields read by the callers are kept. -/
structure Route where
  InAmount : String
  OutAmount : String
deriving DecidableEq, Repr

/-- Modelled from the spec: this version's `QuoteResponse` is missing from
the repository's files; its callers treat it as the list of routes returned
by the remote server (`len(quotes)`, `GetBestRoute`). -/
abbrev QuoteResponse := List Route

/-- Modelled from the spec: this version's `QuoteParams` is missing from the
repository's files; its fields are the ones its callers (`BestSwap`,
`ExchangeRate`) set. -/
structure QuoteParams where
  InputMint : String
  OutputMint : String
  Amount : Nat
  FeeBps : Nat
  SwapMode : String
  OnlyDirectRoutes : Bool
deriving DecidableEq, Repr

/-- This version's `SwapParams` as its caller `BestSwap` sets it (the field
list follows the `SwapParams` of the types file, with this version's
`Route`). -/
structure SwapParams where
  Route : Route
  UserPublicKey : String
  DestinationWallet : String
  FeeAccount : String
  WrapUnwrapSol : Option Bool
  AsLegacyTransaction : Option Bool
deriving DecidableEq, Repr

/-- `SwapResponse` from the types file. -/
structure SwapResponse where
  SwapTransaction : String
deriving DecidableEq, Repr

/-- `BestSwapParams` from the types file. -/
structure BestSwapParams where
  UserPublicKey : String
  DestinationPublicKey : String
  FeeAmount : Nat
  FeeAccount : String
  InputMint : String
  OutputMint : String
  Amount : Nat
  SwapMode : String
deriving DecidableEq, Repr

/-- `ExchangeRateParams` from the types file. -/
structure ExchangeRateParams where
  InputMint : String
  OutputMint : String
  Amount : Nat
  SwapMode : String
deriving DecidableEq, Repr

/-- `Rate` from the types file: the two mints and the unsigned 64-bit
amounts (modelled as naturals below `2^64`). -/
structure Rate where
  InputMint : String
  OutputMint : String
  InAmount : Nat
  OutAmount : Nat
deriving DecidableEq, Repr

/-- The `Price` object from the types file (renamed as in `V0`). -/
structure PriceData where
  ID : String
  MintSymbol : String
  VsToken : String
  VsTokenSymbol : String
  PriceVal : Rat

/-- `PriceMap` is `map[string]Price`. -/
abbrev PriceMap := List (String × PriceData)

/-- `PriceParams` from the types file. -/
structure PriceParams where
  IDs : String
  VsToken : String
  VsAmount : Rat

/-- The external functions this version of the client calls, plus the
pairwise route comparison used by `GetBestRoute` (whose source is not in
the repository's files). -/
structure Ext where
  urlParse : String → Option URL
  encode : Values → String
  qvQuote : QuoteParams → Except GoError Values
  qvPrice : PriceParams → Except GoError Values
  marshalSwap : SwapParams → Except GoError String
  doCall : HttpRequest → Except GoError HttpResponse
  decodeEnvelope : String → Option Response
  decodeQuote : String → Option QuoteResponse
  decodeSwap : String → Option SwapResponse
  decodePrice : String → Option PriceMap
  decodeRoutes : String → Option IndexedRoutesMap
  better : Route → Route → Bool

/-- `NewJupag` of part_001: 500ms HTTP timeout, retry count 1, constant
backoff 500ms (max 1000ms), and the fixed base URL and endpoint paths. -/
def NewJupag : JupagImpl :=
  { jupagImpl := { timeoutMs := 500, retryCount := 1, backoffMs := 500, backoffMaxMs := 1000 }
    apiUrl := "https://price.jup.ag/v6"
    quotePath := "/quote"
    swapPath := "/swap"
    pricePath := "/price"
    routesMapPath := "/indexed-route-map" }

/-- This version's `request` sets no headers. -/
def request (ext : Ext) (qv : σ → Except GoError Values)
    (marshal : β → Except GoError String) (method endpoint : String)
    (params : GoAny σ) (body : GoBody β) :
    Except GoError HttpResponse × List HttpRequest :=
  requestG ext.urlParse ext.encode ext.doCall qv marshal
    [] method endpoint params body

/-- `parseResponse` of part_001 (same body as part_000's). -/
def parseResponse (ext : Ext) (resp : HttpResponse) : Except GoError String :=
  parseResponseG ext.decodeEnvelope resp

/-- Modelled from the spec: `QuoteResponse.GetBestRoute` is missing from the
repository's files (only its call sites in `BestSwap` and `ExchangeRate`
are present).  Per the spec it is a linear scan over the list returned by
the remote server, comparing routes pairwise (comparison `better`) and
returning one element of the list, or an error when the list is empty. -/
def GetBestRoute (better : Route → Route → Bool) : QuoteResponse → Except GoError Route
  | [] => .error "no routes found"
  | r :: rs => .ok (rs.foldl (fun best x => if better x best then x else best) r)

/-- The request `Quote` issues. -/
def quoteRequest (ext : Ext) (c : JupagImpl) (params : QuoteParams) :
    Except GoError HttpResponse × List HttpRequest :=
  request ext ext.qvQuote (fun (b : Empty) => b.elim) "GET"
    (c.apiUrl ++ c.quotePath) (.strukt params) .goNil

/-- `Quote` of part_001: as in part_000 but wrapping request errors and
rejecting an empty decoded quote list (`no quotes returned`). -/
def Quote (ext : Ext) (c : JupagImpl) (params : QuoteParams) : MethodOut QuoteResponse :=
  let r := quoteRequest ext c params
  match r.1 with
  | .error e => ⟨.error ("failed to make quote request: " ++ e), c, r.2⟩
  | .ok resp =>
    match parseResponse ext resp with
    | .error e => ⟨.error ("failed to parse quote response: " ++ e), c, r.2⟩
    | .ok data =>
      match ext.decodeQuote data with
      | none => ⟨.error "failed to parse quote response: unmarshal error", c, r.2⟩
      | some qs =>
        if qs.length = 0 then ⟨.error "no quotes returned", c, r.2⟩
        else ⟨.ok qs, c, r.2⟩

/-- The request `Swap` issues: the `params` argument of `request` is Go
`nil` (the swap parameters travel as the body). -/
def swapRequest (ext : Ext) (c : JupagImpl) (params : SwapParams) :
    Except GoError HttpResponse × List HttpRequest :=
  request ext (fun (b : Empty) => b.elim) ext.marshalSwap "POST"
    (c.apiUrl ++ c.swapPath) .goNil (.strukt params)

/-- `Swap` of part_001 (same body as part_000's). -/
def Swap (ext : Ext) (c : JupagImpl) (params : SwapParams) : MethodOut String :=
  let r := swapRequest ext c params
  match r.1 with
  | .error e => ⟨.error ("failed to make swap request: " ++ e), c, r.2⟩
  | .ok resp =>
    if resp.statusCode ≠ 200 then
      ⟨.error ("unexpected status code: " ++ toString resp.statusCode), c, r.2⟩
    else
      match ext.decodeSwap resp.body with
      | none => ⟨.error "failed to decode response", c, r.2⟩
      | some s => ⟨.ok s.SwapTransaction, c, r.2⟩

/-- The request `Price` issues. -/
def priceRequest (ext : Ext) (c : JupagImpl) (params : PriceParams) :
    Except GoError HttpResponse × List HttpRequest :=
  request ext ext.qvPrice (fun (b : Empty) => b.elim) "GET"
    (c.apiUrl ++ c.pricePath) (.strukt params) .goNil

/-- `Price` of part_001 (same body as part_000's). -/
def Price (ext : Ext) (c : JupagImpl) (params : PriceParams) : MethodOut PriceMap :=
  let r := priceRequest ext c params
  match r.1 with
  | .error e => ⟨.error ("failed to make price request: " ++ e), c, r.2⟩
  | .ok resp =>
    match parseResponse ext resp with
    | .error e => ⟨.error ("failed to parse price response: " ++ e), c, r.2⟩
    | .ok data =>
      match ext.decodePrice data with
      | none => ⟨.error "failed to parse price response: unmarshal error", c, r.2⟩
      | some p => ⟨.ok p, c, r.2⟩

/-- The request `RoutesMap` issues. -/
def routesMapRequest (ext : Ext) (c : JupagImpl) (onlyDirectRoutes : Bool) :
    Except GoError HttpResponse × List HttpRequest :=
  request ext (fun (b : Empty) => b.elim) (fun (b : Empty) => b.elim) "GET"
    (c.apiUrl ++ c.routesMapPath)
    (.vals [("onlyDirectRoutes", [formatBool onlyDirectRoutes])]) .goNil

/-- `RoutesMap` of part_001 (same body as part_000's). -/
def RoutesMap (ext : Ext) (c : JupagImpl) (onlyDirectRoutes : Bool) :
    MethodOut IndexedRoutesMap :=
  let r := routesMapRequest ext c onlyDirectRoutes
  match r.1 with
  | .error e => ⟨.error ("failed to make routes map request: " ++ e), c, r.2⟩
  | .ok resp =>
    match ext.decodeRoutes resp.body with
    | none => ⟨.error "failed to parse routes map response: unmarshal error", c, r.2⟩
    | some m => ⟨.ok m, c, r.2⟩

/-- `BestSwap` of part_001: default the swap mode to `ExactIn`, quote, pick
the best route, and request the swap transaction for it. -/
def BestSwap (ext : Ext) (c : JupagImpl) (params : BestSwapParams) : MethodOut String :=
  let swapMode := if params.SwapMode = "" then SwapModeExactIn else params.SwapMode
  let q := Quote ext c
    { InputMint := params.InputMint
      OutputMint := params.OutputMint
      Amount := params.Amount
      FeeBps := params.FeeAmount
      SwapMode := swapMode
      OnlyDirectRoutes := false }
  match q.result with
  | .error e => ⟨.error e, c, q.trace⟩
  | .ok routes =>
    match GetBestRoute ext.better routes with
    | .error e => ⟨.error e, c, q.trace⟩
    | .ok route =>
      let s := Swap ext c
        { Route := route
          UserPublicKey := params.UserPublicKey
          DestinationWallet := params.DestinationPublicKey
          FeeAccount := params.FeeAccount
          WrapUnwrapSol := some true
          AsLegacyTransaction := some true }
      match s.result with
      | .error e => ⟨.error e, c, q.trace ++ s.trace⟩
      | .ok tx => ⟨.ok tx, c, q.trace ++ s.trace⟩

/-- The Go return value of `ExchangeRate`: the `Rate` (returned even on the
error paths, then carrying only the two mints) and the error, plus the
receiver and transport trace as in `MethodOut`. -/
structure RateOut where
  rate : Rate
  err : Option GoError
  client : JupagImpl
  trace : List HttpRequest

/-- `ExchangeRate` of part_001: quote, pick the best route, parse its two
amount strings with `strconv.ParseInt(·, 10, 64)` and store them through
Go's `uint64(...)` conversion; every early return carries the `Rate` that
holds only the two mints. -/
def ExchangeRate (ext : Ext) (c : JupagImpl) (params : ExchangeRateParams) : RateOut :=
  let result : Rate :=
    { InputMint := params.InputMint, OutputMint := params.OutputMint
      InAmount := 0, OutAmount := 0 }
  let q := Quote ext c
    { InputMint := params.InputMint
      OutputMint := params.OutputMint
      Amount := params.Amount
      FeeBps := 0
      SwapMode := params.SwapMode
      OnlyDirectRoutes := false }
  match q.result with
  | .error e => ⟨result, some e, c, q.trace⟩
  | .ok routes =>
    match GetBestRoute ext.better routes with
    | .error e => ⟨result, some e, c, q.trace⟩
    | .ok route =>
      match parseInt64 route.InAmount with
      | .error e => ⟨result, some ("failed to parse in amount: " ++ e), c, q.trace⟩
      | .ok inAmount =>
        match parseInt64 route.OutAmount with
        | .error e => ⟨result, some ("failed to parse out amount: " ++ e), c, q.trace⟩
        | .ok outAmount =>
          ⟨{ result with InAmount := uint64ofInt inAmount, OutAmount := uint64ofInt outAmount },
            none, c, q.trace⟩

end V1

/- ===== Concrete test fixtures ===== -/

/-- A concrete `V1` environment whose transport answers 200 and whose quote
decoder yields one route with non-negative amounts. -/
def extPos : V1.Ext :=
  { urlParse := fun s => some ⟨s, ""⟩
    encode := fun _ => ""
    qvQuote := fun _ => .ok []
    qvPrice := fun _ => .ok []
    marshalSwap := fun _ => .ok ""
    doCall := fun _ => .ok ⟨200, "B"⟩
    decodeEnvelope := fun _ => some ⟨"D", 0, 0⟩
    decodeQuote := fun _ => some [⟨"5", "7"⟩]
    decodeSwap := fun _ => some ⟨"tx"⟩
    decodePrice := fun _ => some []
    decodeRoutes := fun _ => some ⟨["x"], []⟩
    better := fun _ _ => false }

/-- A concrete `V1` environment whose quote decoder yields one route with a
negative in-amount string. -/
def extNeg : V1.Ext :=
  { urlParse := fun s => some ⟨s, ""⟩
    encode := fun _ => ""
    qvQuote := fun _ => .ok []
    qvPrice := fun _ => .ok []
    marshalSwap := fun _ => .ok ""
    doCall := fun _ => .ok ⟨200, "B"⟩
    decodeEnvelope := fun _ => some ⟨"D", 0, 0⟩
    decodeQuote := fun _ => some [⟨"-5", "7"⟩]
    decodeSwap := fun _ => some ⟨"tx"⟩
    decodePrice := fun _ => some []
    decodeRoutes := fun _ => some ⟨["x"], []⟩
    better := fun _ _ => false }

/-- A concrete `V0` environment whose transport answers 200 with a body the
routes-map decoder accepts but the envelope decoder rejects. -/
def extBypass : V0.Ext :=
  { urlParse := fun s => some ⟨s, ""⟩
    encode := fun _ => ""
    qvQuote := fun _ => .ok []
    qvPrice := fun _ => .ok []
    marshalSwap := fun _ => .ok ""
    doCall := fun _ => .ok ⟨200, "B"⟩
    decodeEnvelope := fun _ => none
    decodeQuote := fun _ => none
    decodeSwap := fun _ => none
    decodePrice := fun _ => none
    decodeRoutes := fun _ => some ⟨["x"], []⟩ }

/- ===== Helper lemmas ===== -/

/-- The overwriting first loop of `GetRoutesForMint` computes the
`IndexedRouteMap` slice of the last matching position (or keeps its
accumulator when the mint never matches). -/
theorem findMintKeysLoop_eq (m : List (String × List Int)) (mint : String) :
    ∀ (l : List String) (k : Nat) (acc : List Int),
    findMintKeysLoop m mint l k acc =
      match lastIdxFrom mint l k with
      | none => acc
      | some j => mapGetInts m (toString j) := by
  intro l
  induction l with
  | nil => intro k acc; rfl
  | cons v rest ih =>
    intro k acc
    simp only [findMintKeysLoop, lastIdxFrom, ih]
    cases lastIdxFrom mint rest (k + 1) with
    | some j => rfl
    | none => by_cases hv : v = mint <;> simp [hv]

/-- The second loop of `GetRoutesForMint` succeeds and maps each index
through `MintKeys` when every index is in range. -/
theorem buildRoutesLoop_ok (keys : List String) (ks : List Int)
    (h : ∀ k ∈ ks, 0 ≤ k ∧ k.toNat < keys.length) :
    buildRoutesLoop keys ks = .ok (ks.map (fun k => keys.getD k.toNat "")) := by
  induction ks with
  | nil => rfl
  | cons k rest ih =>
    have hk := h k (by simp)
    have hrest : ∀ x ∈ rest, 0 ≤ x ∧ x.toNat < keys.length :=
      fun x hx => h x (by simp [hx])
    simp only [buildRoutesLoop, if_pos hk, ih hrest, List.map]

/-- A pairwise-comparison fold over a route list returns an element of the
scanned list. -/
theorem foldBest_mem (better : V1.Route → V1.Route → Bool) :
    ∀ (rs : List V1.Route) (r : V1.Route),
    rs.foldl (fun best x => if better x best then x else best) r ∈ r :: rs := by
  intro rs
  induction rs with
  | nil => intro r; simp
  | cons x rest ih =>
    intro r
    simp only [List.foldl]
    rcases List.mem_cons.mp (ih (if better x r then x else r)) with h | h
    · rw [h]; by_cases hb : better x r <;> simp [hb]
    · simp [h]

/-- `strconv.ParseInt(·, 10, 64)` only returns values in the signed 64-bit
range. -/
theorem parseInt64_bounds (s : String) (i : Int) (h : parseInt64 s = .ok i) :
    -(2 ^ 63) ≤ i ∧ i < 2 ^ 63 := by
  unfold parseInt64 at h
  split at h
  · exact absurd h (by simp)
  · rename_i n hd
    split at h
    · split at h
      · rename_i hle
        injection h with h
        subst h
        constructor <;> omega
      · exact absurd h (by simp)
    · split at h
      · rename_i hle
        injection h with h
        subst h
        constructor <;> omega
      · exact absurd h (by simp)

/-- Go's `uint64(i)` conversion is the identity on non-negative in-range
values. -/
theorem uint64ofInt_nonneg (i : Int) (h0 : 0 ≤ i) (h1 : i < 2 ^ 64) :
    (uint64ofInt i : Int) = i := by
  unfold uint64ofInt
  have h : (2 : Int) ^ 64 = 18446744073709551616 := by norm_num
  rw [h] at h1 ⊢
  omega

/-- Go's `uint64(-n)` conversion is two's-complement wraparound:
`2^64 - n`. -/
theorem uint64ofInt_negn (n : Nat) (h0 : 0 < n) (h1 : n ≤ 2 ^ 64) :
    uint64ofInt (-(n : Int)) = 2 ^ 64 - n := by
  unfold uint64ofInt
  have h : (2 : Int) ^ 64 = 18446744073709551616 := by norm_num
  have h2 : (2 : Nat) ^ 64 = 18446744073709551616 := by norm_num
  rw [h, h2]
  rw [h2] at h1
  omega

/-- A character list accepted by `parseDigits` starts with a digit, so
`parseSign` strips nothing from it. -/
theorem parseSign_of_digits (cs : List Char) (m : Nat)
    (h : parseDigits cs = some m) : parseSign cs = (false, cs) := by
  cases cs with
  | nil => exact absurd h (by simp [parseDigits])
  | cons c rest =>
    have hc : digitVal c ≠ none := by
      intro hn
      have : parseDigits (c :: rest) = none := by
        simp [parseDigits, parseDigitsAux, hn]
      simp [this] at h
    have hminus : c ≠ '-' := by
      intro hh; subst hh; exact hc (by decide)
    have hplus : c ≠ '+' := by
      intro hh; subst hh; exact hc (by decide)
    simp [parseSign, hminus, hplus]

/-- An unsigned decimal string whose value is at least `2^63` is rejected
by `strconv.ParseInt(·, 10, 64)` with a range error. -/
theorem parseInt64_large (s : String) (m : Nat)
    (hd : parseDigits s.toList = some m) (hm : 2 ^ 63 ≤ m) :
    parseInt64 s = .error "value out of range" := by
  have hs := parseSign_of_digits s.toList m hd
  unfold parseInt64
  rw [hs]
  simp only []
  rw [hd]
  simp only [Bool.false_eq_true, if_false]
  rw [if_neg (by omega)]

/- ===== Claim theorems ===== -/

/-- Claim C5: for every `IndexedRoutesMap` `r` and mint string `m`, if `m`
occurs in `r.MintKeys` then `GetRoutesForMint m` returns the list
`r.MintKeys[k]` for each index `k` in `r.IndexedRouteMap[itoa(i)]`, in
order, where `i` is the last index at which `m` occurs in `r.MintKeys`
(indices assumed in range, cf. C6); if `m` does not occur, it returns an
empty slice rather than failing. -/
theorem C5_getRoutesForMint_lastIndex (r : IndexedRoutesMap) (mint : String) :
    (lastIdxFrom mint r.MintKeys 0 = none → GetRoutesForMint r mint = .ok []) ∧
    (∀ i, lastIdxFrom mint r.MintKeys 0 = some i →
      (∀ k ∈ mapGetInts r.IndexedRouteMap (toString i),
        0 ≤ k ∧ k.toNat < r.MintKeys.length) →
      GetRoutesForMint r mint =
        .ok ((mapGetInts r.IndexedRouteMap (toString i)).map
          (fun k => r.MintKeys.getD k.toNat ""))) := by
  constructor
  · intro h
    unfold GetRoutesForMint
    rw [findMintKeysLoop_eq, h]
    rfl
  · intro i hi hk
    unfold GetRoutesForMint
    rw [findMintKeysLoop_eq, hi]
    exact buildRoutesLoop_ok _ _ hk

/-- Claim C6: `GetRoutesForMint` is total only when every index stored for
the matched mint position is in range: whenever they all are, the call
returns a value; and the unguarded indexing `r.MintKeys[key]` makes a
concrete map holding an out-of-range index abort (an index-out-of-range
runtime panic, modelled as the error value). -/
theorem C6_getRoutesForMint_panics :
    (∀ (r : IndexedRoutesMap) (mint : String),
      (∀ i, lastIdxFrom mint r.MintKeys 0 = some i →
        ∀ k ∈ mapGetInts r.IndexedRouteMap (toString i),
          0 ≤ k ∧ k.toNat < r.MintKeys.length) →
      isOkE (GetRoutesForMint r mint) = true) ∧
    GetRoutesForMint ⟨["a"], [("0", [1])]⟩ "a" =
      .error "runtime error: index out of range" := by
  constructor
  · intro r mint h
    unfold GetRoutesForMint
    rw [findMintKeysLoop_eq]
    cases hi : lastIdxFrom mint r.MintKeys 0 with
    | none => rfl
    | some i => rw [buildRoutesLoop_ok _ _ (h i hi)]; rfl
  · rfl

/-- Claim C3: the best-route selection `GetBestRoute` is a single linear
scan comparing routes pairwise: it errors exactly on the empty list, and
any route it returns is an element of the scanned list. -/
theorem C3_getBestRoute_scan (better : V1.Route → V1.Route → Bool)
    (routes : V1.QuoteResponse) :
    (routes = [] → V1.GetBestRoute better routes = .error "no routes found") ∧
    (routes ≠ [] → isOkE (V1.GetBestRoute better routes) = true) ∧
    (∀ r, V1.GetBestRoute better routes = .ok r → r ∈ routes) := by
  refine ⟨fun h => by subst h; rfl, fun h => ?_, fun r h => ?_⟩
  · cases routes with
    | nil => exact absurd rfl h
    | cons r0 rs => rfl
  · cases routes with
    | nil => exact absurd h (by simp [V1.GetBestRoute])
    | cons r0 rs =>
      have : r0 :: rs ≠ [] := by simp
      unfold V1.GetBestRoute at h
      injection h with h
      rw [← h]
      exact foldBest_mem better rs r0

/-- Claim C1: when the quote call of `ExchangeRate` succeeds and the best
route's amount strings parse as non-negative signed 64-bit integers,
`ExchangeRate` returns no error and a `Rate` carrying the two mints of the
params and the parsed amounts; if either string fails to parse, it returns
an error and a `Rate` carrying only the two mints (both amounts zero). -/
theorem C1_exchangeRate_parse (ext : V1.Ext) (c : JupagImpl)
    (params : V1.ExchangeRateParams) (routes : V1.QuoteResponse) (route : V1.Route)
    (hq : (V1.Quote ext c
      { InputMint := params.InputMint
        OutputMint := params.OutputMint
        Amount := params.Amount
        FeeBps := 0
        SwapMode := params.SwapMode
        OnlyDirectRoutes := false }).result = .ok routes)
    (hb : V1.GetBestRoute ext.better routes = .ok route) :
    (∀ i o : Int, parseInt64 route.InAmount = .ok i →
      parseInt64 route.OutAmount = .ok o → 0 ≤ i → 0 ≤ o →
      (V1.ExchangeRate ext c params).err = none ∧
      (V1.ExchangeRate ext c params).rate.InputMint = params.InputMint ∧
      (V1.ExchangeRate ext c params).rate.OutputMint = params.OutputMint ∧
      ((V1.ExchangeRate ext c params).rate.InAmount : Int) = i ∧
      ((V1.ExchangeRate ext c params).rate.OutAmount : Int) = o) ∧
    (isErrE (parseInt64 route.InAmount) = true ∨
        isErrE (parseInt64 route.OutAmount) = true →
      (∃ e, (V1.ExchangeRate ext c params).err = some e) ∧
      (V1.ExchangeRate ext c params).rate =
        { InputMint := params.InputMint, OutputMint := params.OutputMint
          InAmount := 0, OutAmount := 0 }) := by
  constructor
  · intro i o hi ho hi0 ho0
    have hbi := parseInt64_bounds _ _ hi
    have hbo := parseInt64_bounds _ _ ho
    simp only [V1.ExchangeRate, hq, hb, hi, ho]
    refine ⟨by trivial, by trivial, by trivial, ?_, ?_⟩
    · exact uint64ofInt_nonneg i hi0 (by have := hbi.2; norm_num at this ⊢; omega)
    · exact uint64ofInt_nonneg o ho0 (by have := hbo.2; norm_num at this ⊢; omega)
  · intro h
    cases hi : parseInt64 route.InAmount with
    | error e =>
      simp only [V1.ExchangeRate, hq, hb, hi]
      exact ⟨⟨_, by trivial⟩, by trivial⟩
    | ok i =>
      cases ho : parseInt64 route.OutAmount with
      | error e =>
        simp only [V1.ExchangeRate, hq, hb, hi, ho]
        exact ⟨⟨_, by trivial⟩, by trivial⟩
      | ok o =>
        rw [hi, ho] at h
        simp [isErrE] at h

/-- Claim C7: `ExchangeRate` parses amounts as signed 64-bit integers and
converts with `uint64(...)`: a best route whose amount string encodes `-n`
yields a successful `Rate` with the two's-complement value `2^64 - n` in
the corresponding field, while an unsigned decimal amount string of value
at least `2^63` makes the parse fail even though the unsigned field could
represent it. -/
theorem C7_exchangeRate_wraparound (ext : V1.Ext) (c : JupagImpl)
    (params : V1.ExchangeRateParams) (routes : V1.QuoteResponse) (route : V1.Route)
    (hq : (V1.Quote ext c
      { InputMint := params.InputMint
        OutputMint := params.OutputMint
        Amount := params.Amount
        FeeBps := 0
        SwapMode := params.SwapMode
        OnlyDirectRoutes := false }).result = .ok routes)
    (hb : V1.GetBestRoute ext.better routes = .ok route) :
    (∀ (n : Nat) (o : Int), 0 < n → parseInt64 route.InAmount = .ok (-(n : Int)) →
      parseInt64 route.OutAmount = .ok o →
      (V1.ExchangeRate ext c params).err = none ∧
      (V1.ExchangeRate ext c params).rate.InAmount = 2 ^ 64 - n) ∧
    (∀ (n : Nat) (i : Int), 0 < n → parseInt64 route.InAmount = .ok i →
      parseInt64 route.OutAmount = .ok (-(n : Int)) →
      (V1.ExchangeRate ext c params).err = none ∧
      (V1.ExchangeRate ext c params).rate.OutAmount = 2 ^ 64 - n) ∧
    (∀ m : Nat, parseDigits route.InAmount.toList = some m → 2 ^ 63 ≤ m →
      (∃ e, (V1.ExchangeRate ext c params).err = some e) ∧
      (V1.ExchangeRate ext c params).rate =
        { InputMint := params.InputMint, OutputMint := params.OutputMint
          InAmount := 0, OutAmount := 0 }) := by
  refine ⟨?_, ?_, ?_⟩
  · intro n o hn hi ho
    have hbi := parseInt64_bounds _ _ hi
    simp only [V1.ExchangeRate, hq, hb, hi, ho]
    refine ⟨by trivial, ?_⟩
    have hn64 : n ≤ 2 ^ 64 := by
      have := hbi.1
      norm_num at this ⊢
      omega
    exact uint64ofInt_negn n hn hn64
  · intro n i hn hi ho
    have hbo := parseInt64_bounds _ _ ho
    simp only [V1.ExchangeRate, hq, hb, hi, ho]
    refine ⟨by trivial, ?_⟩
    have hn64 : n ≤ 2 ^ 64 := by
      have := hbo.1
      norm_num at this ⊢
      omega
    exact uint64ofInt_negn n hn hn64
  · intro m hdg hm
    have hi : parseInt64 route.InAmount = .error "value out of range" :=
      parseInt64_large _ _ hdg hm
    simp only [V1.ExchangeRate, hq, hb, hi]
    exact ⟨⟨_, by trivial⟩, by trivial⟩

/-- Witness for C1 at a concrete environment: the quote succeeds with the
single route `("5", "7")` and `ExchangeRate` returns exactly those amounts
with the two mints of the params. -/
theorem C1_exchangeRate_parse_witness :
    (V1.ExchangeRate extPos V1.NewJupag ⟨"IM", "OM", 10, ""⟩).err = none ∧
    (V1.ExchangeRate extPos V1.NewJupag ⟨"IM", "OM", 10, ""⟩).rate.InputMint = "IM" ∧
    (V1.ExchangeRate extPos V1.NewJupag ⟨"IM", "OM", 10, ""⟩).rate.OutputMint = "OM" ∧
    ((V1.ExchangeRate extPos V1.NewJupag ⟨"IM", "OM", 10, ""⟩).rate.InAmount : Int) = 5 ∧
    ((V1.ExchangeRate extPos V1.NewJupag ⟨"IM", "OM", 10, ""⟩).rate.OutAmount : Int) = 7 :=
  (C1_exchangeRate_parse extPos V1.NewJupag ⟨"IM", "OM", 10, ""⟩ [⟨"5", "7"⟩] ⟨"5", "7"⟩
    rfl rfl).1 5 7 rfl rfl (by norm_num) (by norm_num)

/-- Witness for C7 at a concrete environment: the quote succeeds with the
single route `("-5", "7")` and `ExchangeRate` stores `2^64 - 5`. -/
theorem C7_exchangeRate_wraparound_witness :
    (V1.ExchangeRate extNeg V1.NewJupag ⟨"IM", "OM", 10, ""⟩).err = none ∧
    (V1.ExchangeRate extNeg V1.NewJupag ⟨"IM", "OM", 10, ""⟩).rate.InAmount = 2 ^ 64 - 5 :=
  (C7_exchangeRate_wraparound extNeg V1.NewJupag ⟨"IM", "OM", 10, ""⟩ [⟨"-5", "7"⟩]
    ⟨"-5", "7"⟩ rfl rfl).1 5 7 (by norm_num) rfl rfl

/-- `V0.Quote` never writes to the receiver. -/
theorem V0_Quote_client (ext : V0.Ext) (c : JupagImpl) (p : V0.QuoteParams) :
    (V0.Quote ext c p).client = c := by
  simp only [V0.Quote]
  repeat' (first | rfl | split)

/-- `V0.Swap` never writes to the receiver. -/
theorem V0_Swap_client (ext : V0.Ext) (c : JupagImpl) (p : V0.SwapParams) :
    (V0.Swap ext c p).client = c := by
  simp only [V0.Swap]
  repeat' (first | rfl | split)

/-- `V0.Price` never writes to the receiver. -/
theorem V0_Price_client (ext : V0.Ext) (c : JupagImpl) (p : V0.PriceParams) :
    (V0.Price ext c p).client = c := by
  simp only [V0.Price]
  repeat' (first | rfl | split)

/-- `V0.RoutesMap` never writes to the receiver. -/
theorem V0_RoutesMap_client (ext : V0.Ext) (c : JupagImpl) (b : Bool) :
    (V0.RoutesMap ext c b).client = c := by
  simp only [V0.RoutesMap]
  repeat' (first | rfl | split)

/-- `V1.Quote` never writes to the receiver. -/
theorem V1_Quote_client (ext : V1.Ext) (c : JupagImpl) (p : V1.QuoteParams) :
    (V1.Quote ext c p).client = c := by
  simp only [V1.Quote]
  repeat' (first | rfl | split)

/-- `V1.Swap` never writes to the receiver. -/
theorem V1_Swap_client (ext : V1.Ext) (c : JupagImpl) (p : V1.SwapParams) :
    (V1.Swap ext c p).client = c := by
  simp only [V1.Swap]
  repeat' (first | rfl | split)

/-- `V1.Price` never writes to the receiver. -/
theorem V1_Price_client (ext : V1.Ext) (c : JupagImpl) (p : V1.PriceParams) :
    (V1.Price ext c p).client = c := by
  simp only [V1.Price]
  repeat' (first | rfl | split)

/-- `V1.RoutesMap` never writes to the receiver. -/
theorem V1_RoutesMap_client (ext : V1.Ext) (c : JupagImpl) (b : Bool) :
    (V1.RoutesMap ext c b).client = c := by
  simp only [V1.RoutesMap]
  repeat' (first | rfl | split)

/-- `V1.BestSwap` never writes to the receiver. -/
theorem V1_BestSwap_client (ext : V1.Ext) (c : JupagImpl) (p : V1.BestSwapParams) :
    (V1.BestSwap ext c p).client = c := by
  simp only [V1.BestSwap]
  repeat' (first | rfl | split)

/-- `V1.ExchangeRate` never writes to the receiver. -/
theorem V1_ExchangeRate_client (ext : V1.Ext) (c : JupagImpl) (p : V1.ExchangeRateParams) :
    (V1.ExchangeRate ext c p).client = c := by
  simp only [V1.ExchangeRate]
  repeat' (first | rfl | split)

/-- Claim C8: `NewJupag` is deterministic with fixed configuration: in each
version of the client file it is a constant record with retry count 1 and a
constant backoff of 500ms (max 1000ms), the fixed base URL, and the four
endpoint paths; and no endpoint method changes any of these settings on the
client it returns. -/
theorem C8_newJupag_fixed_config :
    V0.NewJupag =
      { jupagImpl := ⟨3000, 1, 500, 1000⟩
        apiUrl := "https://quote-proxy.jup.ag"
        quotePath := "/quote", swapPath := "/swap", pricePath := "/price"
        routesMapPath := "/indexed-route-map" } ∧
    V1.NewJupag =
      { jupagImpl := ⟨500, 1, 500, 1000⟩
        apiUrl := "https://price.jup.ag/v6"
        quotePath := "/quote", swapPath := "/swap", pricePath := "/price"
        routesMapPath := "/indexed-route-map" } ∧
    (∀ (ext : V0.Ext) p, (V0.Quote ext V0.NewJupag p).client = V0.NewJupag) ∧
    (∀ (ext : V0.Ext) p, (V0.Swap ext V0.NewJupag p).client = V0.NewJupag) ∧
    (∀ (ext : V0.Ext) p, (V0.Price ext V0.NewJupag p).client = V0.NewJupag) ∧
    (∀ (ext : V0.Ext) b, (V0.RoutesMap ext V0.NewJupag b).client = V0.NewJupag) ∧
    (∀ (ext : V1.Ext) p, (V1.Quote ext V1.NewJupag p).client = V1.NewJupag) ∧
    (∀ (ext : V1.Ext) p, (V1.Swap ext V1.NewJupag p).client = V1.NewJupag) ∧
    (∀ (ext : V1.Ext) p, (V1.Price ext V1.NewJupag p).client = V1.NewJupag) ∧
    (∀ (ext : V1.Ext) b, (V1.RoutesMap ext V1.NewJupag b).client = V1.NewJupag) ∧
    (∀ (ext : V1.Ext) p, (V1.BestSwap ext V1.NewJupag p).client = V1.NewJupag) ∧
    (∀ (ext : V1.Ext) p, (V1.ExchangeRate ext V1.NewJupag p).client = V1.NewJupag) :=
  ⟨rfl, rfl,
    fun ext p => V0_Quote_client ext _ p,
    fun ext p => V0_Swap_client ext _ p,
    fun ext p => V0_Price_client ext _ p,
    fun ext b => V0_RoutesMap_client ext _ b,
    fun ext p => V1_Quote_client ext _ p,
    fun ext p => V1_Swap_client ext _ p,
    fun ext p => V1_Price_client ext _ p,
    fun ext b => V1_RoutesMap_client ext _ b,
    fun ext p => V1_BestSwap_client ext _ p,
    fun ext p => V1_ExchangeRate_client ext _ p⟩

/-- Claim C10: no public method mutates any field of the receiver
`JupagImpl`: in both versions of the client file, every endpoint method
returns with the receiver exactly as it was passed in, for every client
value and every environment. -/
theorem C10_client_immutable :
    (∀ (ext : V1.Ext) c p, (V1.Quote ext c p).client = c) ∧
    (∀ (ext : V1.Ext) c p, (V1.Swap ext c p).client = c) ∧
    (∀ (ext : V1.Ext) c p, (V1.Price ext c p).client = c) ∧
    (∀ (ext : V1.Ext) c b, (V1.RoutesMap ext c b).client = c) ∧
    (∀ (ext : V1.Ext) c p, (V1.BestSwap ext c p).client = c) ∧
    (∀ (ext : V1.Ext) c p, (V1.ExchangeRate ext c p).client = c) ∧
    (∀ (ext : V0.Ext) c p, (V0.Quote ext c p).client = c) ∧
    (∀ (ext : V0.Ext) c p, (V0.Swap ext c p).client = c) ∧
    (∀ (ext : V0.Ext) c p, (V0.Price ext c p).client = c) ∧
    (∀ (ext : V0.Ext) c b, (V0.RoutesMap ext c b).client = c) :=
  ⟨V1_Quote_client, V1_Swap_client, V1_Price_client, V1_RoutesMap_client,
    V1_BestSwap_client, V1_ExchangeRate_client,
    V0_Quote_client, V0_Swap_client, V0_Price_client, V0_RoutesMap_client⟩

/-- Claim C4: `request` builds its URL deterministically: the request's URL
is the parsed endpoint with its query string replaced by the encoding of
`StructToUrlValues(params)`; `StructToUrlValues` errors on nil, returns a
`url.Values` unchanged and otherwise converts the struct; and `request`
returns an error and sends nothing when the endpoint does not parse or the
conversion fails. -/
theorem C4_request_url_construction (σ β : Type)
    (urlParse : String → Option URL) (encode : Values → String)
    (doCall : HttpRequest → Except GoError HttpResponse)
    (qv : σ → Except GoError Values) (marshal : β → Except GoError String)
    (hdrs : List (String × String)) (method endpoint : String)
    (params : GoAny σ) (body : GoBody β) :
    (StructToUrlValues qv (GoAny.goNil : GoAny σ) = .error "struct is nil") ∧
    (∀ v, StructToUrlValues qv (GoAny.vals v : GoAny σ) = .ok v) ∧
    (∀ s, StructToUrlValues qv (GoAny.strukt s) = qv s) ∧
    (urlParse endpoint = none →
      requestG urlParse encode doCall qv marshal hdrs method endpoint params body =
        (.error "url parse error", [])) ∧
    (∀ u e, urlParse endpoint = some u → StructToUrlValues qv params = .error e →
      requestG urlParse encode doCall qv marshal hdrs method endpoint params body =
        (.error ("failed to convert params to url values: " ++ e), [])) ∧
    (∀ u uv d, urlParse endpoint = some u → StructToUrlValues qv params = .ok uv →
      marshalBody marshal body = .ok d →
      requestG urlParse encode doCall qv marshal hdrs method endpoint params body =
        (doCall ⟨method, URL.toString ⟨u.base, encode uv⟩, d, hdrs⟩,
          [⟨method, URL.toString ⟨u.base, encode uv⟩, d, hdrs⟩])) := by
  refine ⟨rfl, fun v => rfl, fun s => rfl, ?_, ?_, ?_⟩
  · intro h
    simp only [requestG, buildRequest, h]
  · intro u e hu hsv
    simp only [requestG, buildRequest, hu, hsv]
  · intro u uv d hu hsv hm
    cases body with
    | goNil =>
      simp only [marshalBody] at hm
      injection hm with hm
      simp only [requestG, buildRequest, hu, hsv, marshalBody, marshalData, ← hm]
    | strukt b =>
      simp only [marshalBody] at hm
      simp only [requestG, buildRequest, hu, hsv, marshalBody, hm, marshalData]

/-- Claim C2 (amended): `parseResponse` errors exactly when the status is
not 200 or the envelope fails to decode, and on success returns the
envelope's `Data`; `Quote` and `Price` then unmarshal that `Data` into
their typed results, while `RoutesMap` (like `Swap`'s response handling)
decodes the response body directly and never goes through `parseResponse`. -/
theorem C2_parseResponse_envelope (ext : V0.Ext) (c : JupagImpl) :
    (∀ resp : HttpResponse,
      isErrE (V0.parseResponse ext resp) = true ↔
        (resp.statusCode ≠ 200 ∨ ext.decodeEnvelope resp.body = none)) ∧
    (∀ resp r, resp.statusCode = 200 → ext.decodeEnvelope resp.body = some r →
      V0.parseResponse ext resp = .ok r.Data) ∧
    (∀ p resp data q, (V0.quoteRequest ext c p).1 = .ok resp →
      V0.parseResponse ext resp = .ok data → ext.decodeQuote data = some q →
      (V0.Quote ext c p).result = .ok q) ∧
    (∀ p resp data pm, (V0.priceRequest ext c p).1 = .ok resp →
      V0.parseResponse ext resp = .ok data → ext.decodePrice data = some pm →
      (V0.Price ext c p).result = .ok pm) ∧
    (∀ b resp m, (V0.routesMapRequest ext c b).1 = .ok resp →
      ext.decodeRoutes resp.body = some m →
      (V0.RoutesMap ext c b).result = .ok m) := by
  refine ⟨?_, ?_, ?_, ?_, ?_⟩
  · intro resp
    unfold V0.parseResponse parseResponseG
    by_cases h : resp.statusCode = 200
    · simp only [h]
      cases hd : ext.decodeEnvelope resp.body <;> simp [isErrE, hd]
    · simp [h, isErrE]
  · intro resp r h200 hdec
    unfold V0.parseResponse parseResponseG
    simp [h200, hdec]
  · intro p resp data q hreq hpr hdq
    simp only [V0.Quote, hreq, hpr, hdq]
  · intro p resp data pm hreq hpr hdp
    simp only [V0.Price, hreq, hpr, hdp]
  · intro b resp m hreq hdm
    simp only [V0.RoutesMap, hreq, hdm]

/-- Claim C2 counterexample: with a concrete environment and client, the
`RoutesMap` endpoint method returns its typed result for the very response
whose envelope decoding fails, so `parseResponse` yields no `Data` at all:
the claim that every endpoint method unmarshals `parseResponse`'s `Data`
is false. -/
theorem C2_routesMap_bypasses_parseResponse :
    (V0.RoutesMap extBypass V0.NewJupag true).result = .ok ⟨["x"], []⟩ ∧
    (V0.routesMapRequest extBypass V0.NewJupag true).1 = .ok ⟨200, "B"⟩ ∧
    V0.parseResponse extBypass ⟨200, "B"⟩ = .error "failed to decode response" :=
  ⟨rfl, rfl, rfl⟩

/-- Claim C9 (the code diverges on `Swap`): `Quote`, `Price` and `RoutesMap`
pass exactly one constructed request to the transport's `Do` per invocation
(whenever the constant endpoint parses and the parameter conversion
succeeds, as they do for the library's oracles), but `Swap` passes its
`params` argument to `request` as Go `nil`, which `StructToUrlValues`
rejects, so every `Swap` invocation returns an error having passed nothing
to the transport. -/
theorem C9_one_transport_call_per_method :
    (∀ (ext : V0.Ext) (c : JupagImpl) (p : V0.SwapParams),
      (V0.Swap ext c p).trace = [] ∧ isErrE (V0.Swap ext c p).result = true) ∧
    (∀ (ext : V0.Ext) c p u uv, ext.urlParse (c.apiUrl ++ c.quotePath) = some u →
      ext.qvQuote p = .ok uv → (V0.Quote ext c p).trace.length = 1) ∧
    (∀ (ext : V0.Ext) c p u uv, ext.urlParse (c.apiUrl ++ c.pricePath) = some u →
      ext.qvPrice p = .ok uv → (V0.Price ext c p).trace.length = 1) ∧
    (∀ (ext : V0.Ext) c b u, ext.urlParse (c.apiUrl ++ c.routesMapPath) = some u →
      (V0.RoutesMap ext c b).trace.length = 1) := by
  refine ⟨?_, ?_, ?_, ?_⟩
  · intro ext c p
    cases h : ext.urlParse (c.apiUrl ++ c.swapPath) with
    | none =>
      constructor <;>
        simp [V0.Swap, V0.swapRequest, V0.request, requestG, buildRequest, h, isErrE]
    | some u =>
      constructor <;>
        simp [V0.Swap, V0.swapRequest, V0.request, requestG, buildRequest,
          StructToUrlValues, h, isErrE]
  · intro ext c p u uv hu hq
    simp only [V0.Quote, V0.quoteRequest, V0.request, requestG, buildRequest,
      StructToUrlValues, hu, hq, marshalBody, marshalData]
    repeat' (first | rfl | split)
  · intro ext c p u uv hu hq
    simp only [V0.Price, V0.priceRequest, V0.request, requestG, buildRequest,
      StructToUrlValues, hu, hq, marshalBody, marshalData]
    repeat' (first | rfl | split)
  · intro ext c b u hu
    simp only [V0.RoutesMap, V0.routesMapRequest, V0.request, requestG, buildRequest,
      StructToUrlValues, hu, marshalBody, marshalData]
    repeat' (first | rfl | split)
